import Mathlib

/-!
Verification development for the `AppEncOpenCV` sample
(`src/AppEncOpenCV/AppEncOpenCV.cpp`): a program that feeds one still image
into the NVENC hardware encoder 375 times and writes the emitted packets to a
file.

The shallow embedding below translates the program's own logic (command-line
parsing, the encode loop of `EncodeCuda`, and the control flow of `main`).
Calls into the external SDKs (NvEncoderCuda, CUDA, OpenCV) are modelled by an
oracle (`EncoderOracle`) and an environment (`Env`) because their behaviour is
outside this repository.
-/

namespace AppEnc

/-- The `NV_ENC_BUFFER_FORMAT` values used by the sample
(`aFormat` table, AppEncOpenCV.cpp lines 186-199, and the hardcoded
`NV_ENC_BUFFER_FORMAT_ABGR` at line 261). -/
inductive BufferFormat where
  | IYUV
  | NV12
  | YV12
  | YUV444
  | YUV420_10BIT
  | YUV444_10BIT
  | ARGB
  | ARGB10
  | AYUV
  | ABGR
  | ABGR10
deriving DecidableEq, Repr

/-- Table `vszFileFormatName` (lines 182-185): the format names accepted by `-if`. -/
def vszFileFormatName : List String :=
  ["iyuv", "nv12", "yv12", "yuv444", "p010", "yuv444p16", "bgra", "bgra10",
   "ayuv", "abgr", "abgr10"]

/-- Table `aFormat` (lines 186-199): the buffer format at each index of the name
table. -/
def aFormat : List BufferFormat :=
  [.IYUV, .NV12, .YV12, .YUV444, .YUV420_10BIT, .YUV444_10BIT,
   .ARGB, .ARGB10, .AYUV, .ABGR, .ABGR10]

/-- The format names printed by the help text
(`ShowHelpAndExit`, line 121): note this line omits `yv12`. -/
def helpFormatNames : List String :=
  ["iyuv", "nv12", "yuv444", "p010", "yuv444p16", "bgra", "bgra10",
   "ayuv", "abgr", "abgr10"]

/-- The option flags listed by the help text (`ShowHelpAndExit`,
lines 117-129). -/
def helpAdvertisedOptions : List String :=
  ["-i", "-o", "-s", "-if", "-gpu", "-outputInVidMem", "-cuStreamType"]

/-- C `isspace` for the default locale: the characters skipped by `atoi` and
by the `%d` conversions of `sscanf`. -/
def isCSpace (c : Char) : Bool :=
  c == ' ' || c == '\t' || c == '\n' || c == '\x0b' || c == '\x0c' || c == '\r'

/-- Value of a digit string (most significant first), as accumulated by the C
library's decimal conversion. -/
def digitsToNat : List Char → Nat → Nat
  | [], acc => acc
  | c :: cs, acc => digitsToNat cs (acc * 10 + (c.toNat - 48))

/-- C `atoi` (used for `-gpu` at line 219 and `-cuStreamType` at line 228):
skip whitespace, optional sign, then a maximal run of digits; with no digits
the result is 0.  (Machine-int overflow is undefined behaviour in C and does
not arise for the inputs of interest, so the value is modelled exactly.) -/
def atoiChars : List Char → Int
  | '-' :: rest => -(digitsToNat (rest.takeWhile Char.isDigit) 0 : Int)
  | '+' :: rest => (digitsToNat (rest.takeWhile Char.isDigit) 0 : Int)
  | cs => (digitsToNat (cs.takeWhile Char.isDigit) 0 : Int)

/-- Function `atoi` itself: whitespace skipping followed by the sign/digit scan. -/
def atoi (s : String) : Int :=
  atoiChars (s.data.dropWhile isCSpace)

/-- A token that is entirely a decimal numeral: an optional sign followed by
one or more digits and nothing else.  This only renders the informal phrase
"numeric string"; `ParseCommandLine` itself never tests it — it always calls
`atoi` on the `-gpu` value. -/
def isNumericString (s : String) : Bool :=
  match s.data with
  | '-' :: rest => !rest.isEmpty && rest.all Char.isDigit
  | '+' :: rest => !rest.isEmpty && rest.all Char.isDigit
  | cs => !cs.isEmpty && cs.all Char.isDigit

/-- One `%d` conversion of `sscanf`: skip whitespace, optional sign, at least
one digit; returns the value and the unconsumed characters. -/
def scanInt (cs : List Char) : Option (Int × List Char) :=
  let cs1 := cs.dropWhile isCSpace
  match cs1 with
  | '-' :: rest =>
      if (rest.takeWhile Char.isDigit).isEmpty then none
      else some (-(digitsToNat (rest.takeWhile Char.isDigit) 0 : Int),
                 rest.dropWhile Char.isDigit)
  | '+' :: rest =>
      if (rest.takeWhile Char.isDigit).isEmpty then none
      else some ((digitsToNat (rest.takeWhile Char.isDigit) 0 : Int),
                 rest.dropWhile Char.isDigit)
  | _ =>
      if (cs1.takeWhile Char.isDigit).isEmpty then none
      else some ((digitsToNat (cs1.takeWhile Char.isDigit) 0 : Int),
                 cs1.dropWhile Char.isDigit)

/-- Models `sscanf(arg, "%dx%d", &nWidth, &nHeight)` (line 176): succeeds (returns 2)
exactly when a first integer, a literal `x` immediately after its digits, and
a second integer are present; trailing characters are ignored. -/
def scanWxH (s : String) : Option (Int × Int) :=
  match scanInt s.data with
  | none => none
  | some (w, rest) =>
    match rest with
    | 'x' :: rest2 =>
      match scanInt rest2 with
      | none => none
      | some (h, _) => some (w, h)
    | _ => none

/-- Models `_stricmp(a, b) == 0`: case-insensitive string equality, used for all
option-flag comparisons in `ParseCommandLine`. -/
def lowerEq (a b : String) : Bool :=
  a.data.map Char.toLower == b.data.map Char.toLower

/-- Models `argv[i][0] == '-'` (an empty C string has `'\0'` first, which is not
`'-'`). -/
def startsWithDash (s : String) : Bool :=
  match s.data with
  | [] => false
  | c :: _ => c == '-'

/-- Models `std::find` over `vszFileFormatName` followed by `it - begin()`
(lines 205-210): index of the first exact (case-sensitive) match. -/
def findFormatIdx (name : String) : List String → Nat → Option Nat
  | [], _ => none
  | s :: rest, k => if s == name then some k else findFormatIdx name rest (k + 1)

/-- The variables written by `ParseCommandLine`, with the initial values they
have in `main` (lines 311-319) before the call. -/
structure ParseState where
  szInputFileName : String := ""
  szOutputFileName : String := ""
  nWidth : Int := 0
  nHeight : Int := 0
  eFormat : BufferFormat := .IYUV
  iGpu : Int := 0
  cuStreamType : Int := -1
  /-- The `oss` stream that collects unrecognised `-x ...` groups, handed to
  `NvEncoderInitParam` at line 243. -/
  encoderParams : String := ""
deriving DecidableEq, Repr

/-- Initial state as set up in `main` (lines 311-319). -/
def parseInit : ParseState := {}

/-- Outcome of `ParseCommandLine`: normal return, `exit(0)` from the `-h`
help path, or the `std::invalid_argument` thrown by
`ShowHelpAndExit(szBadOption)`. -/
inductive ParseOutcome where
  | ok (st : ParseState)
  | helpExit
  | error (badOption : String)
deriving DecidableEq, Repr

/-- Models `while (i + 1 < argc && argv[i + 1][0] != '-') oss << argv[++i] << " ";`
(lines 238-241): the run of following arguments not starting with `-`,
together with the remaining arguments. -/
def takeParams : List String → List String × List String
  | [] => ([], [])
  | a :: rest =>
      if startsWithDash a then ([], a :: rest)
      else
        let p := takeParams rest
        (a :: p.1, p.2)

/-- Models `oss << w << " "` for each collected word. -/
def joinSpaced : List String → String
  | [] => ""
  | a :: rest => a ++ " " ++ joinSpaced rest

/-- The argument loop of `ParseCommandLine` (lines 150-242).  `fuel` is a
structural-recursion bound; it is always called with `fuel ≥` the length of
the argument list, and every recursive call consumes at least one argument,
so the `fuel = 0` arm is never reached from `ParseCommandLine`. -/
def parseArgsF : Nat → List String → ParseState → ParseOutcome
  | 0, _, st => .ok st
  | _ + 1, [], st => .ok st
  | fuel + 1, a :: rest, st =>
    if lowerEq a "-h" then .helpExit
    else if lowerEq a "-i" then
      match rest with
      | [] => .error "-i"
      | v :: rest2 => parseArgsF fuel rest2 { st with szInputFileName := v }
    else if lowerEq a "-o" then
      match rest with
      | [] => .error "-o"
      | v :: rest2 => parseArgsF fuel rest2 { st with szOutputFileName := v }
    else if lowerEq a "-s" then
      match rest with
      | [] => .error "-s"
      | v :: rest2 =>
        match scanWxH v with
        | none => .error "-s"
        | some wh => parseArgsF fuel rest2 { st with nWidth := wh.1, nHeight := wh.2 }
    else if lowerEq a "-if" then
      match rest with
      | [] => .error "-if"
      | v :: rest2 =>
        match findFormatIdx v vszFileFormatName 0 with
        | none => .error "-if"
        | some idx => parseArgsF fuel rest2 { st with eFormat := aFormat.getD idx st.eFormat }
    else if lowerEq a "-gpu" then
      match rest with
      | [] => .error "-gpu"
      | v :: rest2 => parseArgsF fuel rest2 { st with iGpu := atoi v }
    else if lowerEq a "-cuStreamType" then
      match rest with
      | [] => .error "-cuStreamType"
      | v :: rest2 => parseArgsF fuel rest2 { st with cuStreamType := atoi v }
    else if startsWithDash a = false then .error a
    else
      let p := takeParams rest
      parseArgsF fuel p.2
        { st with encoderParams := st.encoderParams ++ a ++ " " ++ joinSpaced p.1 }

/-- Function `ParseCommandLine` (lines 144-244), applied to `argv[1..]`. -/
def ParseCommandLine (args : List String) : ParseOutcome :=
  parseArgsF args.length args parseInit

/-- Constant `int last_frame = 15*25;` (line 269). -/
def last_frame : Nat := 15 * 25

/-- Abstract model of the external NVENC encoder session: what the `i`-th
`EncodeFrame` call and the final `EndEncode` call put into `vPacket`.  The
encoder is proprietary hardware, so its packet output is an oracle; the
theorems hold for every oracle. -/
structure EncoderOracle where
  packetsAt : Nat → List (List Nat)
  flushPackets : List (List Nat)

/-- Observable effect of one loop iteration of `EncodeCuda` on the encoder:
either a frame submission (`GetNextInputFrame` + `CopyToDeviceFrame` of the
given source bytes + `EncodeFrame`, lines 279-288) or the flush
(`EndEncode`, line 292). -/
inductive EncodeEvent where
  | submit (frameData : List Nat)
  | flush
deriving DecidableEq, Repr

/-- Returns `true` exactly on frame-submission events. -/
def EncodeEvent.isSubmit : EncodeEvent → Bool
  | .submit _ => true
  | .flush => false

/-- The mutable state threaded through the `for` loop of `EncodeCuda`:
the sequence of encoder calls made so far, `nFrame` (line 268), and the bytes
written to `fpOut` so far (line 298). -/
structure EncLoopState where
  events : List EncodeEvent
  nFrame : Nat
  fileBytes : List Nat
deriving DecidableEq, Repr

/-- One iteration of the loop body (lines 270-300): for `i < last_frame`
copy `srcIn.data` into the next input frame and call `EncodeFrame`; at
`i = last_frame` call `EndEncode`; in both cases add `vPacket.size()` to
`nFrame` and write each packet of `vPacket` to the file in order. -/
def encodeIter (enc : EncoderOracle) (srcIn : List Nat)
    (s : EncLoopState) (i : Nat) : EncLoopState :=
  if i < last_frame then
    let vPacket := enc.packetsAt i
    { events := s.events ++ [EncodeEvent.submit srcIn],
      nFrame := s.nFrame + vPacket.length,
      fileBytes := s.fileBytes ++ vPacket.flatten }
  else
    let vPacket := enc.flushPackets
    { events := s.events ++ [EncodeEvent.flush],
      nFrame := s.nFrame + vPacket.length,
      fileBytes := s.fileBytes ++ vPacket.flatten }

/-- Result of `EncodeCuda` (lines 259-305): the constructor arguments of
`NvEncoderCuda` (line 263) and the effect of the loop. -/
structure EncodeResult where
  sessionWidth : Int
  sessionHeight : Int
  sessionFormat : BufferFormat
  events : List EncodeEvent
  nFrame : Nat
  fileBytes : List Nat
deriving DecidableEq, Repr

/-- Function `EncodeCuda` (lines 259-305).  Note the function does not receive the
parsed `-if` format: line 261 hardcodes the local
`eFormat = NV_ENC_BUFFER_FORMAT_ABGR` that is passed both to the
`NvEncoderCuda` constructor (line 263) and to `InitializeEncoder`
(line 265).  `srcIn` models the bytes of `srcIn.data`, which the loop only
reads (line 280). -/
def EncodeCuda (nWidth nHeight : Int) (enc : EncoderOracle)
    (srcIn : List Nat) : EncodeResult :=
  let eFormat := BufferFormat.ABGR
  let s := (List.range (last_frame + 1)).foldl (encodeIter enc srcIn)
    { events := [], nFrame := 0, fileBytes := [] }
  { sessionWidth := nWidth, sessionHeight := nHeight, sessionFormat := eFormat,
    events := s.events, nFrame := s.nFrame, fileBytes := s.fileBytes }

/-- All packets the encoder emits during one run of `EncodeCuda`, in emission
order: for each of the `last_frame` submissions the packets of that
`EncodeFrame` call in vector order, then the tail packets drained by
`EndEncode`. -/
def emittedPackets (enc : EncoderOracle) : List (List Nat) :=
  ((List.range last_frame).flatMap enc.packetsAt) ++ enc.flushPackets

/-- The `cv::Mat` dimensions of the loaded input image (`srcImgHost.cols/rows`,
lines 327-328). -/
structure ImageInfo where
  cols : Int
  rows : Int
deriving DecidableEq, Repr

/-- Model of everything `main` obtains from outside this repository: the
loaded image, `cuDeviceGetCount` (line 339), whether the `ck`-checked CUDA /
OpenCV / ValidateResolution calls succeed (any failure throws, and
`apiErrMsg` is the exception's `what()`), whether the output `ofstream`
opens (line 356), the encoder session, and the bytes of the colour-converted
device image `srcImgDevice.data`. -/
structure Env where
  img : ImageInfo
  nGpu : Int
  apiOk : Bool
  apiErrMsg : String
  fileOpens : Bool
  encoder : EncoderOracle
  srcData : List Nat

/-- The message built by `ShowHelpAndExit(szBadOption)` (lines 108-135) and
thrown as `std::invalid_argument`. -/
def showHelpErrorMsg (badOption : String) : String :=
  "Error parsing \"" ++ badOption ++ "\"\n" ++
  "Options:\n-i               Input file path\n-o               Output file path\n" ++
  "-s               Input resolution in this form: WxH\n" ++
  "-if              Input format: iyuv nv12 yuv444 p010 yuv444p16 bgra bgra10 ayuv abgr abgr10\n" ++
  "-gpu             Ordinal of GPU to use\n" ++
  "-outputInVidMem  Set this to 1 to enable output in Video Memory\n" ++
  "-cuStreamType    Use CU stream for pre and post processing when outputInVidMem is set to 1\n"

/-- Outcome of `main` (lines 308-375): `exit(0)` from the `-h` help path, a
`return 1` with a printed message (either a caught exception's text or the
GPU-range message), or a completed run (`return 0`) carrying the parsed
state, the value of `bOutputInVideoMem` (line 320) and the `EncodeCuda`
result. -/
inductive RunResult where
  | helpExit
  | errorExit (msg : String)
  | completed (st : ParseState) (bOutputInVideoMem : Bool) (res : EncodeResult)
deriving DecidableEq, Repr

/-- Function `main` (lines 308-375).  After `ParseCommandLine` returns, lines 327-328
unconditionally overwrite `nWidth` and `nHeight` with the loaded image's
dimensions, so those are what reach `EncodeCuda`; `bOutputInVideoMem` is
declared `false` at line 320 and never reassigned.  Every thrown exception is
caught at line 369, its text printed, and 1 returned. -/
def mainRun (args : List String) (env : Env) : RunResult :=
  match ParseCommandLine args with
  | .helpExit => .helpExit
  | .error bad => .errorExit (showHelpErrorMsg bad)
  | .ok st =>
    let nWidth := env.img.cols
    let nHeight := env.img.rows
    let bOutputInVideoMem := false
    if env.apiOk = false then .errorExit env.apiErrMsg
    else if st.iGpu < 0 ∨ st.iGpu ≥ env.nGpu then
      .errorExit ("GPU ordinal out of range. Should be within [0, " ++
        toString (env.nGpu - 1) ++ "]")
    else if env.fileOpens = false then
      .errorExit ("Unable to open output file: " ++ st.szOutputFileName)
    else
      .completed st bOutputInVideoMem (EncodeCuda nWidth nHeight env.encoder env.srcData)

/-- Process exit status of a run: `exit(0)` for help, `return 1` on error,
`return 0` on completion. -/
def exitCode : RunResult → Nat
  | .errorExit _ => 1
  | _ => 0

/-- The GPU-ordinal admission check of `main` (line 340):
`iGpu < 0 || iGpu >= nGpu` rejects the run. -/
def gpuOutOfRange (iGpu nGpu : Int) : Prop :=
  iGpu < 0 ∨ iGpu ≥ nGpu

/-- The `-if` format stored by `ParseCommandLine`, when the run completed. -/
def runParsedFormat : RunResult → Option BufferFormat
  | .completed st _ _ => some st.eFormat
  | _ => none

/-- The format the encoder session was opened with, when the run completed. -/
def runSessionFormat : RunResult → Option BufferFormat
  | .completed _ _ res => some res.sessionFormat
  | _ => none

/-- The `-s` dimensions stored by `ParseCommandLine`, when the run
completed. -/
def runParsedDims : RunResult → Option (Int × Int)
  | .completed st _ _ => some (st.nWidth, st.nHeight)
  | _ => none

/-- The dimensions the encoder session was opened with, when the run
completed. -/
def runSessionDims : RunResult → Option (Int × Int)
  | .completed _ _ res => some (res.sessionWidth, res.sessionHeight)
  | _ => none

/-- The value of `bOutputInVideoMem` at the end of a completed run. -/
def runOutputInVidMem : RunResult → Option Bool
  | .completed _ b _ => some b
  | _ => none

/-- Encoder oracle that emits no packets at all. -/
def nilOracle : EncoderOracle :=
  { packetsAt := fun _ => [], flushPackets := [] }

/-- Encoder oracle emitting one one-byte packet per call. -/
def sampleOracle : EncoderOracle :=
  { packetsAt := fun _ => [[0]], flushPackets := [[1]] }

/-- A healthy concrete environment: a 640x480 image, one GPU, all external
calls succeed. -/
def okEnv : Env :=
  { img := { cols := 640, rows := 480 }, nGpu := 1, apiOk := true,
    apiErrMsg := "", fileOpens := true, encoder := nilOracle, srcData := [] }

end AppEnc

namespace AppEnc

def iterEvent (srcIn : List Nat) (i : Nat) : EncodeEvent :=
  if i < last_frame then .submit srcIn else .flush

def iterPackets (enc : EncoderOracle) (i : Nat) : List (List Nat) :=
  if i < last_frame then enc.packetsAt i else enc.flushPackets

lemma encodeIter_eq (enc : EncoderOracle) (srcIn : List Nat) (s : EncLoopState) (i : Nat) :
    encodeIter enc srcIn s i =
      { events := s.events ++ [iterEvent srcIn i],
        nFrame := s.nFrame + (iterPackets enc i).length,
        fileBytes := s.fileBytes ++ (iterPackets enc i).flatten } := by
  unfold encodeIter iterEvent iterPackets
  split <;> rfl

lemma foldl_encodeIter (enc : EncoderOracle) (srcIn : List Nat) :
    ∀ (l : List Nat) (s : EncLoopState),
      l.foldl (encodeIter enc srcIn) s =
        { events := s.events ++ l.map (iterEvent srcIn),
          nFrame := s.nFrame + (l.map (fun i => (iterPackets enc i).length)).sum,
          fileBytes := s.fileBytes ++ l.flatMap (fun i => (iterPackets enc i).flatten) } := by
  intro l
  induction l with
  | nil => intro s; simp
  | cons i t ih =>
      intro s
      rw [List.foldl_cons, encodeIter_eq, ih]
      simp [Nat.add_assoc]

lemma EncodeCuda_eq (w h : Int) (enc : EncoderOracle) (srcIn : List Nat) :
    EncodeCuda w h enc srcIn =
      { sessionWidth := w, sessionHeight := h, sessionFormat := .ABGR,
        events := (List.range (last_frame + 1)).map (iterEvent srcIn),
        nFrame := ((List.range (last_frame + 1)).map
          (fun i => (iterPackets enc i).length)).sum,
        fileBytes := (List.range (last_frame + 1)).flatMap
          (fun i => (iterPackets enc i).flatten) } := by
  rw [EncodeCuda, foldl_encodeIter]
  simp

lemma flatten_flatMap {α β : Type} (l : List α) (f : α → List (List β)) :
    (l.flatMap f).flatten = l.flatMap (fun a => (f a).flatten) := by
  induction l with
  | nil => rfl
  | cons a t ih => simp [List.flatMap_cons, ih]

lemma map_iterEvent_range (srcIn : List Nat) :
    (List.range last_frame).map (iterEvent srcIn)
      = List.replicate last_frame (EncodeEvent.submit srcIn) := by
  rw [List.eq_replicate_iff]
  refine ⟨by simp, ?_⟩
  intro b hb
  obtain ⟨i, hi, rfl⟩ := List.mem_map.mp hb
  simp [iterEvent, List.mem_range.mp hi]

set_option maxRecDepth 8000 in
lemma events_char (w h : Int) (enc : EncoderOracle) (srcIn : List Nat) :
    (EncodeCuda w h enc srcIn).events
      = List.replicate last_frame (EncodeEvent.submit srcIn) ++ [EncodeEvent.flush] := by
  rw [EncodeCuda_eq]
  dsimp only
  rw [List.range_succ, List.map_append, map_iterEvent_range]
  simp [iterEvent]

lemma flatMap_iterPackets_range (enc : EncoderOracle) :
    (List.range last_frame).flatMap (fun i => (iterPackets enc i).flatten)
      = (List.range last_frame).flatMap (fun i => (enc.packetsAt i).flatten) :=
  List.flatMap_congr (fun i hi => by simp [iterPackets, List.mem_range.mp hi])

lemma map_iterPackets_len_range (enc : EncoderOracle) :
    (List.range last_frame).map (fun i => (iterPackets enc i).length)
      = (List.range last_frame).map (fun i => (enc.packetsAt i).length) :=
  List.map_congr_left (fun i hi => by simp [iterPackets, List.mem_range.mp hi])

set_option maxRecDepth 8000 in
lemma fileBytes_char (w h : Int) (enc : EncoderOracle) (srcIn : List Nat) :
    (EncodeCuda w h enc srcIn).fileBytes = (emittedPackets enc).flatten := by
  rw [EncodeCuda_eq]
  dsimp only
  rw [emittedPackets, List.flatten_append, flatten_flatMap, List.range_succ,
    List.flatMap_append, flatMap_iterPackets_range]
  simp [iterPackets]

set_option maxRecDepth 8000 in
lemma nFrame_char (w h : Int) (enc : EncoderOracle) (srcIn : List Nat) :
    (EncodeCuda w h enc srcIn).nFrame = (emittedPackets enc).length := by
  rw [EncodeCuda_eq]
  dsimp only
  rw [List.range_succ, List.map_append, List.sum_append, map_iterPackets_len_range,
    emittedPackets, List.length_append, List.length_flatMap]
  simp [iterPackets, Function.comp_def]

end AppEnc

namespace AppEnc

lemma takeWhile_isDigit_nil (l : List Char) (h : ∀ c ∈ l, c.isDigit = false) :
    l.takeWhile Char.isDigit = [] := by
  cases l with
  | nil => rfl
  | cons c cs => simp [List.takeWhile_cons, h c (List.mem_cons_self c cs)]

lemma atoiChars_eq_zero (cs : List Char) (h : ∀ c ∈ cs, c.isDigit = false) :
    atoiChars cs = 0 := by
  unfold atoiChars
  split
  next rest =>
    rw [takeWhile_isDigit_nil rest (fun c hc => h c (List.mem_cons_of_mem _ hc))]
    simp [digitsToNat]
  next rest =>
    rw [takeWhile_isDigit_nil rest (fun c hc => h c (List.mem_cons_of_mem _ hc))]
    simp [digitsToNat]
  next h1 h2 =>
    rw [takeWhile_isDigit_nil _ h]
    simp [digitsToNat]

lemma atoi_eq_zero_of_no_digits (t : String) (h : ∀ c ∈ t.data, c.isDigit = false) :
    atoi t = 0 :=
  atoiChars_eq_zero _
    (fun c hc => h c ((List.dropWhile_sublist isCSpace).subset hc))

lemma findFormatIdx_eq_none (name : String) :
    ∀ (l : List String) (k : Nat), name ∉ l → findFormatIdx name l k = none := by
  intro l
  induction l with
  | nil => intro k _; rfl
  | cons s rest ih =>
      intro k h
      rw [List.mem_cons, not_or] at h
      rw [findFormatIdx, if_neg (by simpa using (Ne.symm h.1)), ih _ h.2]

lemma parse_if_eq (name : String) :
    ParseCommandLine ["-if", name]
      = match findFormatIdx name vszFileFormatName 0 with
        | none => ParseOutcome.error "-if"
        | some idx =>
            ParseOutcome.ok { parseInit with eFormat := aFormat.getD idx parseInit.eFormat } := rfl

lemma mainRun_completed_inv (args : List String) (env : Env) (st : ParseState)
    (b : Bool) (res : EncodeResult)
    (hrun : mainRun args env = .completed st b res) :
    res = EncodeCuda env.img.cols env.img.rows env.encoder env.srcData ∧ b = false := by
  unfold mainRun at hrun
  cases hp : ParseCommandLine args <;> rw [hp] at hrun
  case helpExit => simp at hrun
  case error bad => simp at hrun
  case ok st' =>
    dsimp only at hrun
    split at hrun
    · simp at hrun
    · split at hrun
      · simp at hrun
      · split at hrun
        · simp at hrun
        · injection hrun with h1 h2 h3
          exact ⟨h3.symm, h2.symm⟩

end AppEnc

namespace AppEnc

/-- C1: the encode procedure performs exactly 375 frame submissions (loop
index `i = 0..374`: obtain the next encoder input frame, copy the image into
it, call `EncodeFrame`), followed by exactly one flush call (`EndEncode` at
`i = 375`), in that order; no submission occurs after the flush. -/
theorem encode_loop_375_submits_then_one_flush (w h : Int) (enc : EncoderOracle)
    (srcIn : List Nat) :
    (EncodeCuda w h enc srcIn).events
      = List.replicate 375 (EncodeEvent.submit srcIn) ++ [EncodeEvent.flush] :=
  events_char w h enc srcIn

/-- C2: the output file content is the concatenation of all packets the
encoder emitted, across iterations in iteration order and within an
iteration in vector order — every packet exactly once, no reordering,
duplication, or omission. -/
theorem file_bytes_concat_of_emitted (w h : Int) (enc : EncoderOracle)
    (srcIn : List Nat) :
    (EncodeCuda w h enc srcIn).fileBytes = (emittedPackets enc).flatten :=
  fileBytes_char w h enc srcIn

/-- C3: for a run completing the encode loop whose encoder emitted at least
one non-empty packet (which a valid image and GPU guarantee), the output file
is non-empty; the packet count written equals the packets emitted for the 375
submitted frames plus the tail packets drained by the flush, and the printed
`Total frames encoded` counter (`nFrame`) equals this same total. -/
theorem completed_run_nonempty_and_counts (w h : Int) (enc : EncoderOracle)
    (srcIn : List Nat) (hne : ∃ p ∈ emittedPackets enc, p ≠ []) :
    (EncodeCuda w h enc srcIn).fileBytes ≠ [] ∧
    (EncodeCuda w h enc srcIn).nFrame = (emittedPackets enc).length ∧
    (emittedPackets enc).length
      = ((List.range 375).flatMap enc.packetsAt).length
        + enc.flushPackets.length := by
  refine ⟨?_, nFrame_char w h enc srcIn, ?_⟩
  · rw [fileBytes_char]
    intro h0
    obtain ⟨p, hp, hpne⟩ := hne
    exact hpne (List.flatten_eq_nil_iff.mp h0 p hp)
  · rw [emittedPackets, List.length_append]
    norm_num [last_frame]

/-- Witness for C3 at a concrete oracle emitting one 1-byte packet per
call. -/
theorem completed_run_nonempty_and_counts_witness :
    (EncodeCuda 640 480 sampleOracle []).fileBytes ≠ [] ∧
    (EncodeCuda 640 480 sampleOracle []).nFrame = (emittedPackets sampleOracle).length ∧
    (emittedPackets sampleOracle).length
      = ((List.range 375).flatMap sampleOracle.packetsAt).length
        + sampleOracle.flushPackets.length :=
  completed_run_nonempty_and_counts 640 480 sampleOracle []
    ⟨[1], by simp [emittedPackets, sampleOracle], by decide⟩

/-- C8: every one of the 375 submissions copies from the same source buffer
`srcIn.data` (which the loop only reads, never writes), so all submitted
frames carry identical pixel content: the submission events of the trace are
exactly 375 copies of `submit srcIn`. -/
theorem submissions_all_copy_same_source (w h : Int) (enc : EncoderOracle)
    (srcIn : List Nat) :
    ((EncodeCuda w h enc srcIn).events).filter EncodeEvent.isSubmit
      = List.replicate 375 (EncodeEvent.submit srcIn) := by
  rw [events_char, List.filter_append,
    List.filter_eq_self.mpr
      (fun a ha => by rw [List.eq_of_mem_replicate ha]; rfl),
    show List.filter EncodeEvent.isSubmit [EncodeEvent.flush] = [] from rfl,
    List.append_nil]
  norm_num [last_frame]

end AppEnc

namespace AppEnc

/-- C4 counterexample: in the run invoked with `-if nv12`, the parsed format
is NV12 but the encoder session is opened with ABGR, so the session format
does not equal the format parsed from `-if`. -/
theorem if_format_not_forwarded_cex :
    runParsedFormat (mainRun ["-if", "nv12"] okEnv) = some BufferFormat.NV12 ∧
    runSessionFormat (mainRun ["-if", "nv12"] okEnv) = some BufferFormat.ABGR ∧
    BufferFormat.NV12 ≠ BufferFormat.ABGR :=
  ⟨rfl, rfl, by decide⟩

/-- C4 amended: the encoder session is always opened with
`NV_ENC_BUFFER_FORMAT_ABGR`, whatever `-if` requested: `EncodeCuda` hardcodes
its local `eFormat` (line 261) and never receives the parsed format. -/
theorem session_format_always_abgr (args : List String) (env : Env)
    (st : ParseState) (b : Bool) (res : EncodeResult)
    (hrun : mainRun args env = .completed st b res) :
    res.sessionFormat = BufferFormat.ABGR := by
  rw [(mainRun_completed_inv args env st b res hrun).1]
  rfl

/-- Witness for the C4 amended theorem on a concrete completed run. -/
theorem session_format_always_abgr_witness :
    (EncodeCuda okEnv.img.cols okEnv.img.rows okEnv.encoder okEnv.srcData).sessionFormat
      = BufferFormat.ABGR :=
  session_format_always_abgr ["-if", "nv12"] okEnv
    { parseInit with eFormat := .NV12 } false
    (EncodeCuda okEnv.img.cols okEnv.img.rows okEnv.encoder okEnv.srcData) rfl

/-- C5 counterexample: in the run invoked with `-s 100x100` on a 640x480
image, `ParseCommandLine` stores 100x100 but the encoder is created with
640x480, so `-s` does not act as a resolution override. -/
theorem resolution_override_ignored_cex :
    runParsedDims (mainRun ["-s", "100x100"] okEnv) = some (100, 100) ∧
    runSessionDims (mainRun ["-s", "100x100"] okEnv) = some (640, 480) ∧
    ((100 : Int), (100 : Int)) ≠ ((640 : Int), (480 : Int)) :=
  ⟨rfl, rfl, by decide⟩

/-- C5 amended: the `-s` value is parsed into `nWidth`/`nHeight`, but `main`
(lines 327-328) unconditionally overwrites both with the loaded image's
dimensions before creating the encoder, so every completed run opens the
encoder with the image's dimensions. -/
theorem session_dims_are_image_dims (args : List String) (env : Env)
    (st : ParseState) (b : Bool) (res : EncodeResult)
    (hrun : mainRun args env = .completed st b res) :
    res.sessionWidth = env.img.cols ∧ res.sessionHeight = env.img.rows := by
  rw [(mainRun_completed_inv args env st b res hrun).1]
  exact ⟨rfl, rfl⟩

/-- Witness for the C5 amended theorem on a concrete completed run. -/
theorem session_dims_are_image_dims_witness :
    (EncodeCuda okEnv.img.cols okEnv.img.rows okEnv.encoder okEnv.srcData).sessionWidth
      = okEnv.img.cols ∧
    (EncodeCuda okEnv.img.cols okEnv.img.rows okEnv.encoder okEnv.srcData).sessionHeight
      = okEnv.img.rows :=
  session_dims_are_image_dims ["-s", "100x100"] okEnv
    { parseInit with nWidth := 100, nHeight := 100 } false
    (EncodeCuda okEnv.img.cols okEnv.img.rows okEnv.encoder okEnv.srcData) rfl

/-- C6: the help text advertises `-outputInVidMem`, but `ParseCommandLine`
has no case for it: the flag and its value are swallowed as encoder-parameter
text, and the run's `bOutputInVideoMem` stays `false` — passing
`-outputInVidMem 1` does not enable output in video memory. -/
theorem outputinvidmem_advertised_but_inert :
    "-outputInVidMem" ∈ helpAdvertisedOptions ∧
    ParseCommandLine ["-outputInVidMem", "1"]
      = .ok { parseInit with encoderParams := "-outputInVidMem 1 " } ∧
    runOutputInVidMem (mainRun ["-outputInVidMem", "1"] okEnv) = some false :=
  ⟨by decide, by decide, rfl⟩

end AppEnc

namespace AppEnc

/-- C7: every invocation in which an argument error occurs (malformed flag
value or unknown format name, i.e. `ParseCommandLine` throws; unopenable
output file; GPU ordinal outside `[0, nGpu-1]`) or a `ck`-checked API call
fails ends with a reported message and exit status 1; `mainRun` is a single
pass, so there is no retry. -/
theorem errors_report_and_exit_nonzero (args : List String) (env : Env)
    (herr : (∃ bad, ParseCommandLine args = .error bad) ∨
      (∃ st, ParseCommandLine args = .ok st ∧
        (env.apiOk = false ∨ gpuOutOfRange st.iGpu env.nGpu ∨ env.fileOpens = false))) :
    (∃ msg, mainRun args env = .errorExit msg) ∧ exitCode (mainRun args env) = 1 := by
  have hex : ∃ msg, mainRun args env = .errorExit msg := by
    rcases herr with ⟨bad, hp⟩ | ⟨st, hp, hc⟩
    · exact ⟨showHelpErrorMsg bad, by unfold mainRun; rw [hp]⟩
    · unfold mainRun
      rw [hp]
      dsimp only
      by_cases ha : env.apiOk = false
      · rw [if_pos ha]; exact ⟨_, rfl⟩
      · rw [if_neg ha]
        by_cases hg : st.iGpu < 0 ∨ st.iGpu ≥ env.nGpu
        · rw [if_pos hg]; exact ⟨_, rfl⟩
        · rw [if_neg hg]
          have hf : env.fileOpens = false := by
            rcases hc with h | h | h
            · exact absurd h ha
            · exact absurd h hg
            · exact h
          rw [if_pos hf]; exact ⟨_, rfl⟩
  obtain ⟨msg, hm⟩ := hex
  exact ⟨⟨msg, hm⟩, by rw [hm]; rfl⟩

/-- Witness for C7: `-s abc` is a malformed flag value. -/
theorem errors_report_and_exit_nonzero_witness :
    (∃ msg, mainRun ["-s", "abc"] okEnv = .errorExit msg) ∧
    exitCode (mainRun ["-s", "abc"] okEnv) = 1 :=
  errors_report_and_exit_nonzero ["-s", "abc"] okEnv (Or.inl ⟨"-s", by decide⟩)

/-- C9 counterexample: `12abc` is not a numeric string, yet `-gpu 12abc`
raises no parse error and stores ordinal 12 (the `atoi` result), not 0. -/
theorem gpu_nonnumeric_not_always_zero_cex :
    isNumericString "12abc" = false ∧
    ParseCommandLine ["-gpu", "12abc"] = .ok { parseInit with iGpu := 12 } ∧
    (12 : Int) ≠ 0 := by decide

/-- C9 amended: whatever token follows `-gpu`, `ParseCommandLine` raises no
parse error and silently stores the `atoi` result as the GPU ordinal — 0
exactly when the token carries no digits at all (e.g. `abc`), the numeric
prefix value otherwise (e.g. 12 for `12abc`); a run whose other external
calls succeed then fails only later, and only if that ordinal is outside the
detected device range. -/
theorem gpu_token_stored_as_atoi (t : String) :
    ParseCommandLine ["-gpu", t] = .ok { parseInit with iGpu := atoi t } ∧
    ((∀ c ∈ t.data, c.isDigit = false) → atoi t = 0) ∧
    (∀ env : Env, env.apiOk = true → env.fileOpens = true →
      ((∃ msg, mainRun ["-gpu", t] env = .errorExit msg)
        ↔ gpuOutOfRange (atoi t) env.nGpu)) := by
  have hparse : ParseCommandLine ["-gpu", t]
      = .ok { parseInit with iGpu := atoi t } := rfl
  refine ⟨hparse, atoi_eq_zero_of_no_digits t, ?_⟩
  intro env hapi hfile
  unfold mainRun
  rw [hparse]
  dsimp only
  rw [if_neg (by simp [hapi])]
  by_cases hg : atoi t < 0 ∨ atoi t ≥ env.nGpu
  · rw [if_pos hg]
    exact ⟨fun _ => hg, fun _ => ⟨_, rfl⟩⟩
  · rw [if_neg hg, if_neg (by simp [hfile])]
    constructor
    · rintro ⟨msg, hmsg⟩
      exact absurd hmsg (by simp)
    · intro hor
      exact absurd hor hg

/-- Witness for the C9 amended theorem at the token `abc` and a healthy
one-GPU environment. -/
theorem gpu_token_stored_as_atoi_witness :
    ParseCommandLine ["-gpu", "abc"] = .ok { parseInit with iGpu := atoi "abc" } ∧
    atoi "abc" = 0 ∧
    ((∃ msg, mainRun ["-gpu", "abc"] okEnv = .errorExit msg)
      ↔ gpuOutOfRange (atoi "abc") okEnv.nGpu) :=
  ⟨(gpu_token_stored_as_atoi "abc").1,
   (gpu_token_stored_as_atoi "abc").2.1 (by decide),
   (gpu_token_stored_as_atoi "abc").2.2 okEnv rfl rfl⟩

/-- C10 counterexample: `-if NV12` is rejected with a parse error even though
`NV12` differs from the accepted name `nv12` only by letter case, so the
format names are not matched case-insensitively. -/
theorem if_format_uppercase_rejected_cex :
    ParseCommandLine ["-if", "NV12"] = .error "-if" ∧
    lowerEq "NV12" "nv12" = true := by decide

/-- C10 amended: `-if` accepts exactly the eleven names of
`vszFileFormatName`, case-sensitively, mapping each to the buffer format at
the same index of `aFormat`; every other name raises the `-if` help error;
`yv12` is accepted (index 2) even though the printed help line omits it. -/
theorem if_format_table_exact :
    (∀ name, name ∉ vszFileFormatName → ParseCommandLine ["-if", name] = .error "-if") ∧
    ParseCommandLine ["-if", "iyuv"] = .ok { parseInit with eFormat := .IYUV } ∧
    ParseCommandLine ["-if", "nv12"] = .ok { parseInit with eFormat := .NV12 } ∧
    ParseCommandLine ["-if", "yv12"] = .ok { parseInit with eFormat := .YV12 } ∧
    ParseCommandLine ["-if", "yuv444"] = .ok { parseInit with eFormat := .YUV444 } ∧
    ParseCommandLine ["-if", "p010"] = .ok { parseInit with eFormat := .YUV420_10BIT } ∧
    ParseCommandLine ["-if", "yuv444p16"] = .ok { parseInit with eFormat := .YUV444_10BIT } ∧
    ParseCommandLine ["-if", "bgra"] = .ok { parseInit with eFormat := .ARGB } ∧
    ParseCommandLine ["-if", "bgra10"] = .ok { parseInit with eFormat := .ARGB10 } ∧
    ParseCommandLine ["-if", "ayuv"] = .ok { parseInit with eFormat := .AYUV } ∧
    ParseCommandLine ["-if", "abgr"] = .ok { parseInit with eFormat := .ABGR } ∧
    ParseCommandLine ["-if", "abgr10"] = .ok { parseInit with eFormat := .ABGR10 } ∧
    ("yv12" ∈ vszFileFormatName ∧ "yv12" ∉ helpFormatNames) := by
  refine ⟨?_, by decide, by decide, by decide, by decide, by decide, by decide,
    by decide, by decide, by decide, by decide, by decide, by decide⟩
  intro name hname
  rw [parse_if_eq, findFormatIdx_eq_none name vszFileFormatName 0 hname]

/-- Witness for the C10 amended theorem: an arbitrary name outside the table
is rejected. -/
theorem if_format_table_exact_witness :
    ParseCommandLine ["-if", "rgb"] = .error "-if" :=
  if_format_table_exact.1 "rgb" (by decide)

end AppEnc
